import Mathlib

/-!
Shallow embedding of the procedural level generator and solvability engine of
the "path garden" pipe-rotation puzzle (source: the level-generation module of
the repository, exporting `buildValidatedProceduralLevel`, `findReachableNodes`,
`isPuzzleSolved`, `isPerspectiveLinkActive`, `ensureUnsolvedBoard`,
`getTileOpenDirections`).

Modelling conventions, fixed once here:

* JavaScript numbers: all quantities that the source keeps integral (grid
  coordinates, rotations, seeds, step counters) are embedded as `Int`/`Nat`.
  The 32-bit wrap-arounds of the seeded RNG (`>>> 0`, `Math.imul`, `^`, `|`)
  are written out as explicit `% 2^32` arithmetic on `Nat`.
* Floating point: the only genuinely fractional values in the source are the
  bias weights and thresholds built from two-decimal literals (`2.2`, `0.08`,
  `0.45`, ...) and RNG outputs `u / 2^32`.  Every comparison the source makes
  on such values is embedded EXACTLY over the rationals generated by those
  literals, represented as integer numerators over a fixed power-of-ten /
  power-of-two common denominator (so all arithmetic below is integer
  arithmetic).  This is the exact-real reading of the decimal literals; IEEE
  double rounding of the literals themselves is not modelled.
* JS `%` on integers is truncated division remainder, embedded as `Int.tmod`.
* Arrays: `xs[i]` lookups are embedded with `Option` (`none` = JS `undefined`).
  Dereferencing a missing ROW of a 2-d grid (`grid[y][x]` with `grid[y]`
  undefined) throws a `TypeError` in JS; the total model below is only applied
  under dimension hypotheses that rule this out, and the `...E` (`Except`)
  variants at the end of the file model the throwing behaviour exactly.
* JS `Set` values are embedded as lists used only through membership;
  the string keys `"x,y"` of the source are in bijection with the integer
  points they encode, so points are used directly as keys.
-/

namespace Khido

/-- Direction of a tile edge, as in the source union type. -/
inductive Direction where
  | N | E | S | W
deriving DecidableEq, Repr

/-- Tile kind, as in the source union type. -/
inductive PuzzleKind where
  | straight | corner
deriving DecidableEq, Repr

/-- Grid cell, `x` = column, `y` = row. -/
structure Point where
  x : Int
  y : Int
deriving DecidableEq, Repr

/-- The optional switch gating a perspective link. -/
structure RequiredSwitch where
  tile : Point
  rotations : List Int
deriving DecidableEq, Repr

/-- A perspective link: a long-range connection between two anchor cells. -/
structure PerspectiveLink where
  a : Point
  b : Point
  requiredSwitch : Option RequiredSwitch
deriving DecidableEq, Repr

/-- A generated level.  The display strings (`name`, `vibe`) and the colour
payload of the theme are carried verbatim from constant tables in the source
and have no algorithmic content; they are omitted, except that the theme's
INDEX is kept because drawing it consumes one RNG value. -/
structure PuzzleLevel where
  id : Int
  expectedMoves : Int
  layout : List (List PuzzleKind)
  initialRotations : List (List Int)
  start : Point
  goal : Point
  perspectiveLinks : List PerspectiveLink
  themeIndex : Int
  flowerTileKeys : List Point
  obstacleTileKeys : List Point
  seed : Int
deriving DecidableEq, Repr

/-- A generation candidate: the level plus its canonical solved grid. -/
structure GeneratedLevelCandidate where
  level : PuzzleLevel
  solvedRotations : List (List Int)
deriving DecidableEq, Repr

/-! ## Seeded RNG (`createSeededRandom`)

The source RNG is a Mulberry32 variant: state `s` grows by `0x6d2b79f5` per
draw (exact float addition, embedded as unbounded `Nat` addition) and the
output word is a 32-bit mix of the state.  `Math.imul`, `^`, `|`, `>>>`
coerce to 32 bits, embedded as `% 4294967296`. -/

/-- One application of the 32-bit output mixer of the source RNG. -/
def mix32 (s : Nat) : Nat :=
  let s0 := s % 4294967296
  let t1 := (Nat.xor s0 (s0 >>> 15) * (1 ||| s0)) % 4294967296
  let t2 := Nat.xor t1 ((t1 + (Nat.xor t1 (t1 >>> 7) * (61 ||| t1)) % 4294967296) % 4294967296)
  Nat.xor t2 (t2 >>> 14)

/-- Advance the RNG state and produce the 32-bit numerator `u` of the drawn
value `u / 2^32 ∈ [0,1)`; returns `(u, nextState)`. -/
def rngDraw (s : Nat) : Nat × Nat :=
  (mix32 (s + 1831565813), s + 1831565813)

/-- Initial RNG state: `seed >>> 0` in the source. -/
def rngInit (seed : Int) : Nat :=
  (seed.emod 4294967296).toNat

/-- Source `randomInt(rng, min, max)`: `Math.floor(rng() * (max - min + 1)) + min`.
Exact because `u * span` is an exact double for the spans the source uses. -/
def randomIntDraw (s : Nat) (lo hi : Int) : Int × Nat :=
  let (u, s') := rngDraw s
  (lo + Int.fdiv ((u : Int) * (hi - lo + 1)) 4294967296, s')

/-- Source `randomFrom(rng, values)` (`values[randomInt(rng, 0, len-1)]`),
with an explicit default for the (never exercised) empty case. -/
def randomFromDraw (s : Nat) (values : List α) (dflt : α) : α × Nat :=
  let (i, s') := randomIntDraw s 0 ((values.length : Int) - 1)
  ((values.get? i.toNat).getD dflt, s')

/-! ## Grid access helpers -/

/-- Optional-chaining style 2-d lookup, `grid[y]?.[x]`: `none` when either
index misses (negative or past the end). -/
def cellAt (g : List (List α)) (y x : Int) : Option α :=
  if 0 ≤ y ∧ 0 ≤ x then (g.get? y.toNat).bind (fun row => row.get? x.toNat) else none

/-- Functional update of one grid cell; out-of-range writes are dropped (the
source never performs one). -/
def setCell (g : List (List α)) (y x : Int) (v : α) : List (List α) :=
  if 0 ≤ y ∧ 0 ≤ x then
    match g.get? y.toNat with
    | some row => g.set y.toNat (row.set x.toNat v)
    | none => g
  else g

/-- The two grids have identical row count and row lengths. -/
def dimsMatch (layout : List (List PuzzleKind)) (rots : List (List Int)) : Bool :=
  rots.length == layout.length &&
    (List.zip layout rots).all (fun pr => pr.1.length == pr.2.length)

/-! ## Tile geometry (`getTileOpenDirections`, `oppositeDirection`) -/

/-- Source `oppositeDirection`. -/
def oppositeDirection (d : Direction) : Direction :=
  match d with
  | .N => .S
  | .S => .N
  | .E => .W
  | .W => .E

/-- Source `getTileOpenDirections` on well-typed arguments: normalize the
rotation into `[0,360)` (`((rotation % 360) + 360) % 360`), then the fixed
lookup. -/
def getTileOpenDirections (kind : PuzzleKind) (rotation : Int) : List Direction :=
  let normalized := ((rotation.tmod 360) + 360).tmod 360
  match kind with
  | .straight => if normalized.tmod 180 = 0 then [.N, .S] else [.E, .W]
  | .corner =>
      if normalized = 0 then [.N, .E]
      else if normalized = 90 then [.E, .S]
      else if normalized = 180 then [.S, .W]
      else [.W, .N]

/-- `getTileOpenDirections` as the source actually executes it on array
lookups that may be `undefined` (JS `NaN` propagation): an undefined kind
falls through the `=== 'straight'` test into the corner branch, an undefined
rotation makes every `NaN`-comparison false. -/
def getTileOpenDirectionsO (kind : Option PuzzleKind) (rotation : Option Int) : List Direction :=
  match kind with
  | some .straight =>
      match rotation with
      | some r => if (((r.tmod 360) + 360).tmod 360).tmod 180 = 0 then [.N, .S] else [.E, .W]
      | none => [.E, .W]
  | _ =>
      match rotation with
      | some r =>
          let normalized := ((r.tmod 360) + 360).tmod 360
          if normalized = 0 then [.N, .E]
          else if normalized = 90 then [.E, .S]
          else if normalized = 180 then [.S, .W]
          else [.W, .N]
      | none => [.W, .N]

/-! ## Link activation (`isPerspectiveLinkActive`) -/

/-- The snap step `Math.round(normalized / 90) * 90 % 360` of the source, for
`normalized ∈ [0,360)`.  `Math.round` is round-half-up, i.e.
`⌊n/90 + 1/2⌋ = ⌊(2n+90)/180⌋`; on `[0,360)` the double `n/90` never crosses a
half-integer boundary (the exact half cases 45/90, 135/90, 225/90, 315/90 are
dyadic and exact), so this integer form is the exact JS result. -/
def snapRotation (normalized : Int) : Int :=
  (((2 * normalized + 90) / 180) * 90).tmod 360

/-- Source `isPerspectiveLinkActive`: a link with no required switch is always
active; otherwise look up the switch tile's rotation with optional chaining
(`undefined` ⇒ inactive), normalize, snap, and test membership in the allowed
set. -/
def isPerspectiveLinkActive (link : PerspectiveLink) (rotations : List (List Int)) : Bool :=
  match link.requiredSwitch with
  | none => true
  | some sw =>
      match cellAt rotations sw.tile.y sw.tile.x with
      | none => false
      | some r =>
          let normalized := ((r.tmod 360) + 360).tmod 360
          sw.rotations.contains (snapRotation normalized)

/-! ## Connectivity engine (`findReachableNodes`, `isPuzzleSolved`) -/

/-- Row count of the level grid (`level.layout.length`). -/
def rowCount (level : PuzzleLevel) : Int :=
  (level.layout.length : Int)

/-- Column count (`level.layout[0].length`; `0` for an empty layout, which in
JS would throw — the degenerate case is never exercised under the dimension
hypotheses used below). -/
def colCount (level : PuzzleLevel) : Int :=
  ((level.layout.head?.getD []).length : Int)

/-- The in-grid bounds check `nextX >= 0 && nextY >= 0 && nextX < colCount && nextY < rowCount`. -/
def inBounds (level : PuzzleLevel) (p : Point) : Bool :=
  decide (0 ≤ p.x) && decide (0 ≤ p.y) && decide (p.x < colCount level) && decide (p.y < rowCount level)

/-- The neighbouring cell one step in a direction (`N` decrements `y`, `S`
increments `y`, `W` decrements `x`, `E` increments `x`). -/
def neighborPoint (p : Point) (d : Direction) : Point :=
  match d with
  | .N => ⟨p.x, p.y - 1⟩
  | .S => ⟨p.x, p.y + 1⟩
  | .W => ⟨p.x - 1, p.y⟩
  | .E => ⟨p.x + 1, p.y⟩

/-- Open directions of the tile at `p`, reading both grids the way the source
does (`level.layout[y][x]`, `rotations[y][x]`). -/
def openDirsAt (level : PuzzleLevel) (rots : List (List Int)) (p : Point) : List Direction :=
  getTileOpenDirectionsO (cellAt level.layout p.y p.x) (cellAt rots p.y p.x)

/-- The "Spring seeding" test shared by `findReachableNodes` and (inlined,
textually identical) by `isPuzzleSolved`: the start tile has some open
direction matched by an in-bounds neighbour, or some active link touches the
start. -/
def springHasConnection (level : PuzzleLevel) (rots : List (List Int)) : Bool :=
  (openDirsAt level rots level.start).any (fun d =>
      let q := neighborPoint level.start d
      inBounds level q && decide (oppositeDirection d ∈ openDirsAt level rots q))
  || level.perspectiveLinks.any (fun link =>
      isPerspectiveLinkActive link rots &&
        (decide (link.a = level.start) || decide (link.b = level.start)))

/-- Grid expansion step of the BFS: for each open direction of `p`, the
in-bounds neighbour whose opposite direction is open back. -/
def gridStepTargets (level : PuzzleLevel) (rots : List (List Int)) (p : Point) : List Point :=
  (openDirsAt level rots p).filterMap (fun d =>
    let q := neighborPoint p d
    if inBounds level q && decide (oppositeDirection d ∈ openDirsAt level rots q) then some q
    else none)

/-- Link expansion step of the BFS: the far anchor of each active link
touching `p`. -/
def linkStepTargets (level : PuzzleLevel) (rots : List (List Int)) (p : Point) : List Point :=
  level.perspectiveLinks.filterMap (fun link =>
    if isPerspectiveLinkActive link rots && (decide (link.a = p) || decide (link.b = p)) then
      some (if link.a = p then link.b else link.a)
    else none)

/-- All BFS successors of `p`, in the order the source enqueues them. -/
def stepTargets (level : PuzzleLevel) (rots : List (List Int)) (p : Point) : List Point :=
  gridStepTargets level rots p ++ linkStepTargets level rots p

/-- Insert one BFS target: skip if already visited, else mark visited and
append to the freshly-enqueued list. -/
def bfsInsert (acc : List Point × List Point) (t : Point) : List Point × List Point :=
  if t ∈ acc.1 then acc else (t :: acc.1, acc.2 ++ [t])

/-- Process the target list of one dequeued node against the visited set,
returning the new visited set and the nodes to enqueue. -/
def bfsProcess (targets : List Point) (vis : List Point) : List Point × List Point :=
  targets.foldl bfsInsert (vis, [])

/-- The BFS worklist loop (`while (queue.length) { ... }` of the source).  The
source loop runs until the queue empties; every enqueue is paired with a fresh
visited-set insertion, so the fuel used in `findReachableNodes` (strictly more
than the number of candidate nodes) is never exhausted — this is proved below
(`bfsLoop_closed`). -/
def bfsLoop (level : PuzzleLevel) (rots : List (List Int)) :
    Nat → List Point → List Point → List Point
  | 0, _, vis => vis
  | _ + 1, [], vis => vis
  | fuel + 1, p :: rest, vis =>
      let pr := bfsProcess (stepTargets level rots p) vis
      bfsLoop level rots fuel (rest ++ pr.2) pr.1

/-- Every point the BFS can ever visit: the start, the grid cells, and the
link anchors. -/
def bfsUniverse (level : PuzzleLevel) : List Point :=
  level.start ::
    ((List.range (rowCount level).toNat).flatMap (fun (y : Nat) =>
      (List.range (colCount level).toNat).map
        (fun (x : Nat) => (⟨(x : Int), (y : Int)⟩ : Point))))
    ++ level.perspectiveLinks.flatMap (fun link => [link.a, link.b])

/-- Fuel bound for the worklist loop; strictly exceeds the number of distinct
visitable nodes, hence the number of queue operations. -/
def bfsFuel (level : PuzzleLevel) : Nat :=
  (bfsUniverse level).length + 1

/-- Source `findReachableNodes`: empty unless the Spring connects outward;
otherwise BFS from the start over mutually-open grid boundaries and active
links.  The result is the visited set (a duplicate-free list used only
through membership). -/
def findReachableNodes (level : PuzzleLevel) (rots : List (List Int)) : List Point :=
  if springHasConnection level rots then
    bfsLoop level rots (bfsFuel level) [level.start] [level.start]
  else []

/-- Source `isPuzzleSolved`: the four win conditions — Spring connects
outward, the reachable set contains the start, it contains the goal, and the
Gate has an inward connection (grid or link) from a reachable cell. -/
def isPuzzleSolved (level : PuzzleLevel) (rots : List (List Int)) : Bool :=
  if !springHasConnection level rots then false
  else
    let reachable := findReachableNodes level rots
    if !(decide (level.start ∈ reachable)) then false
    else if !(decide (level.goal ∈ reachable)) then false
    else
      (openDirsAt level rots level.goal).any (fun d =>
          let q := neighborPoint level.goal d
          inBounds level q && decide (oppositeDirection d ∈ openDirsAt level rots q) &&
            decide (q ∈ reachable))
      || level.perspectiveLinks.any (fun link =>
          isPerspectiveLinkActive link rots &&
            (decide (link.a = level.goal) || decide (link.b = level.goal)) &&
            decide ((if link.a = level.goal then link.b else link.a) ∈ reachable))

/-- Source `cloneRotations` (`input.map(row => [...row])`): a deep grid copy,
functionally the identity. -/
def cloneRotations (input : List (List Int)) : List (List Int) :=
  input.map (fun row => row)

/-! ## Unsolved-state enforcer (`ensureUnsolvedBoard`)

The two imperative search passes of the source try rotation perturbations in a
fixed order and return at the first unsolved configuration, restoring the
grid between attempts; each tried configuration is therefore the original grid
with one (resp. two) cells replaced.  They are embedded as `List.find?` over
the candidate grids in the source's try order. -/

/-- The single-tile pass: for each cell in seed-derived order, the three
grids obtained by turning that cell by +90, +180, +270 (mod 360). -/
def singleAlternatives (level : PuzzleLevel) (rots : List (List Int)) : List (List (List Int)) :=
  let cc := (level.layout.head?.getD []).length
  let tileCount := level.layout.length * cc
  let startOffset := level.seed.natAbs % tileCount
  (List.range tileCount).flatMap (fun indexOffset =>
    let index := (startOffset + indexOffset) % tileCount
    let row : Int := ((index / cc : Nat) : Int)
    let col : Int := ((index % cc : Nat) : Int)
    let original := (cellAt rots row col).getD 0
    [90, 180, 270].map (fun delta => setCell rots row col ((original + delta).tmod 360)))

/-- The paired-tile fallback pass: all combinations of alternate rotations of
two distinct cells, in the source's nesting order. -/
def pairAlternatives (level : PuzzleLevel) (rots : List (List Int)) : List (List (List Int)) :=
  let cc := (level.layout.head?.getD []).length
  let tileCount := level.layout.length * cc
  let startOffset := level.seed.natAbs % tileCount
  (List.range tileCount).flatMap (fun firstOffset =>
    let firstIndex := (startOffset + firstOffset) % tileCount
    let fr : Int := ((firstIndex / cc : Nat) : Int)
    let fc : Int := ((firstIndex % cc : Nat) : Int)
    let firstOriginal := (cellAt rots fr fc).getD 0
    [90, 180, 270].flatMap (fun firstDelta =>
      let g1 := setCell rots fr fc ((firstOriginal + firstDelta).tmod 360)
      ((List.range tileCount).drop (firstOffset + 1)).flatMap (fun secondOffset =>
        let secondIndex := (startOffset + secondOffset) % tileCount
        let sr : Int := ((secondIndex / cc : Nat) : Int)
        let sc : Int := ((secondIndex % cc : Nat) : Int)
        let secondOriginal := (cellAt g1 sr sc).getD 0
        [90, 180, 270].map (fun secondDelta =>
          setCell g1 sr sc ((secondOriginal + secondDelta).tmod 360)))))

/-- Source `ensureUnsolvedBoard`: return the grid unchanged if it is not
solved; otherwise return the first unsolved grid of the single-tile pass,
else the first unsolved grid of the paired-tile pass, else (pathological
boards) the original solved grid. -/
def ensureUnsolvedBoard (level : PuzzleLevel) (rotations : List (List Int)) : List (List Int) :=
  let candidate := cloneRotations rotations
  if !isPuzzleSolved level candidate then candidate
  else
    match (singleAlternatives level candidate).find? (fun g => !isPuzzleSolved level g) with
    | some g => g
    | none =>
        match (pairAlternatives level candidate).find? (fun g => !isPuzzleSolved level g) with
        | some g => g
        | none => candidate

/-! ## Path synthesis (`buildPath` and friends) -/

/-- The preferred traversal axis of a path. -/
inductive PathDirection where
  | left_to_right | right_to_left | top_to_bottom | bottom_to_top
deriving DecidableEq, Repr

/-- One row of the `LEVEL_GENERATION_CONFIGS` table.  `decorDensity` is kept
×100 (every table literal has at most two decimals). -/
structure LevelGenerationConfig where
  cols : Int
  rows : Int
  directions : List PathDirection
  minTurns : Int
  targetLength : Int
  scrambleBoost : Int
  perspectiveLinks : Int
  decorDensity : Int
deriving DecidableEq, Repr

/-- The source's `LEVEL_GENERATION_CONFIGS` table (densities ×100). -/
def LEVEL_GENERATION_CONFIGS : List LevelGenerationConfig :=
  [ ⟨3, 3, [.left_to_right], 1, 4, 0, 0, 34⟩,
    ⟨4, 3, [.top_to_bottom, .right_to_left], 2, 6, 0, 0, 36⟩,
    ⟨4, 4, [.right_to_left, .bottom_to_top], 3, 7, 0, 1, 38⟩,
    ⟨5, 4, [.bottom_to_top, .left_to_right], 4, 8, 1, 1, 40⟩,
    ⟨5, 4, [.top_to_bottom, .left_to_right, .right_to_left], 4, 9, 1, 1, 42⟩,
    ⟨5, 5, [.right_to_left, .top_to_bottom], 5, 10, 1, 1, 45⟩,
    ⟨6, 5, [.left_to_right, .bottom_to_top], 6, 12, 1, 2, 46⟩,
    ⟨6, 5, [.top_to_bottom, .right_to_left], 6, 13, 1, 2, 46⟩,
    ⟨6, 6, [.bottom_to_top, .left_to_right], 7, 14, 2, 2, 48⟩,
    ⟨6, 6, [.right_to_left, .top_to_bottom, .left_to_right], 8, 15, 2, 2, 50⟩,
    ⟨6, 6, [.left_to_right, .bottom_to_top, .top_to_bottom], 8, 16, 2, 2, 52⟩,
    ⟨6, 6, [.top_to_bottom, .right_to_left], 9, 17, 2, 3, 54⟩,
    ⟨6, 6, [.bottom_to_top, .left_to_right], 9, 18, 2, 3, 56⟩,
    ⟨6, 6, [.right_to_left, .top_to_bottom], 10, 19, 3, 3, 58⟩ ]

/-- The table's last entry, which backs the `?? CONFIGS[length-1]` fallback
for level ids outside `1..14`. -/
def fallbackConfig : LevelGenerationConfig :=
  ⟨6, 6, [.right_to_left, .top_to_bottom], 10, 19, 3, 3, 58⟩

/-- `LEVEL_GENERATION_CONFIGS[levelId - 1] ?? LEVEL_GENERATION_CONFIGS[last]`. -/
def levelConfig (levelId : Int) : LevelGenerationConfig :=
  if 0 ≤ levelId - 1 then
    (LEVEL_GENERATION_CONFIGS.get? (levelId - 1).toNat).getD fallbackConfig
  else fallbackConfig

/-- Index an array at a JS-style (possibly negative) integer index. -/
def listAt (l : List α) (i : Int) : Option α :=
  if i < 0 then none else l.get? i.toNat

/-- Source `directionBetween(from, to)`. -/
def directionBetween (src dst : Point) : Direction :=
  if dst.x > src.x then .E
  else if dst.x < src.x then .W
  else if dst.y > src.y then .S
  else .N

/-- Sort key used by the source's `normalizeDirPair` character sort:
`'E' < 'N' < 'S' < 'W'`. -/
def dirRank (d : Direction) : Nat :=
  match d with
  | .E => 0
  | .N => 1
  | .S => 2
  | .W => 3

/-- Source `normalizeDirPair`: the pair in character-code order. -/
def normalizeDirPair (a b : Direction) : Direction × Direction :=
  if dirRank a ≤ dirRank b then (a, b) else (b, a)

/-- Source `dirsToTile`: canonical (kind, rotation) for a direction pair.  A
degenerate equal-direction pair matches none of the named cases and falls
through to corner/270, exactly as the source's if-chain does. -/
def dirsToTile (d1 d2 : Direction) : PuzzleKind × Int :=
  match normalizeDirPair d1 d2 with
  | (.N, .S) => (.straight, 0)
  | (.E, .W) => (.straight, 90)
  | (.E, .N) => (.corner, 0)
  | (.E, .S) => (.corner, 90)
  | (.S, .W) => (.corner, 180)
  | _ => (.corner, 270)

/-- Source `countTurns`. -/
def countTurns : List Point → Int
  | a :: b :: c :: rest =>
      (if directionBetween a b ≠ directionBetween b c then 1 else 0) + countTurns (b :: c :: rest)
  | _ => 0

/-- Common denominator for the fractional score weights: `100 · 2^32`. -/
def scoreScale : Int := 100 * 4294967296

/-- Numerator of the `Math.max(0.1, score)` clamp at `scoreScale`. -/
def minWeight : Int := 10 * 4294967296

/-- The subtract-until-nonpositive scan of `chooseWeightedPoint`; `thr` is
carried at `scoreScale · 2^32`. -/
def chooseWeightedGo : Int → List (Point × Int) → Option Point
  | _, [] => none
  | thr, (p, sc) :: rest =>
      let thr2 := thr - (max minWeight sc) * 4294967296
      if thr2 ≤ 0 then some p else chooseWeightedGo thr2 rest

/-- Source `chooseWeightedPoint`: scores are numerators at `scoreScale`; the
threshold `rng() * total` is the drawn numerator `u` times the total.  The
final `candidates[length-1]` fallback is unreachable for a nonempty list
(the scan always fires because `u < 2^32`), and the empty list — on which the
source would throw — yields `none`, which `buildPath` turns into its (dead)
`if (!next) break` exit. -/
def chooseWeightedPoint (u : Nat) (cands : List (Point × Int)) : Option Point :=
  let total := cands.foldl (fun acc pc => acc + max minWeight pc.2) 0
  match chooseWeightedGo ((u : Int) * total) cands with
  | some p => some p
  | none => cands.getLast?.map (fun pc => pc.1)

/-- `isAtGoal` of `buildPath`, per traversal direction. -/
def pathIsAtGoal (cols rows : Int) (d : PathDirection) (p : Point) : Bool :=
  match d with
  | .right_to_left => decide (p.x ≤ 0)
  | .top_to_bottom => decide (p.y ≥ rows - 1)
  | .bottom_to_top => decide (p.y ≤ 0)
  | .left_to_right => decide (p.x ≥ cols - 1)

/-- `isForwardMove` of `buildPath`, per traversal direction. -/
def pathIsForwardMove (d : PathDirection) (src dst : Point) : Bool :=
  match d with
  | .right_to_left => decide (dst.x < src.x)
  | .top_to_bottom => decide (dst.y > src.y)
  | .bottom_to_top => decide (dst.y < src.y)
  | .left_to_right => decide (dst.x > src.x)

/-- The in-bounds orthogonal neighbours of the walk head, in the push order
of the source (left, right, up, down). -/
def stepCandidates (cols rows : Int) (cur : Point) : List Point :=
  (if cur.x > 0 then [(⟨cur.x - 1, cur.y⟩ : Point)] else []) ++
  (if cur.x < cols - 1 then [(⟨cur.x + 1, cur.y⟩ : Point)] else []) ++
  (if cur.y > 0 then [(⟨cur.x, cur.y - 1⟩ : Point)] else []) ++
  (if cur.y < rows - 1 then [(⟨cur.x, cur.y + 1⟩ : Point)] else [])

/-- Manhattan distance. -/
def manhattanDist (a b : Point) : Int :=
  ((a.x - b.x).natAbs : Int) + ((a.y - b.y).natAbs : Int)

/-- One walk candidate's score, as a numerator at `scoreScale`:
`1 + forward + lateral + max(0, cols+rows−manhattan) − visitedPenalty`. -/
def candidateScore (cols rows : Int) (d : PathDirection) (goal : Point)
    (fbN wbN rpN : Int) (visited : List Point) (cur c : Point) : Int :=
  let manhattan := manhattanDist goal c
  let visitedPenalty := if c ∈ visited then rpN else 0
  let forward := if pathIsForwardMove d cur c then fbN else 0
  let lateral := if pathIsForwardMove d cur c then 0 else wbN
  let distanceBias := max 0 (cols + rows - manhattan)
  scoreScale + forward + lateral + distanceBias * scoreScale - visitedPenalty

/-- The biased random walk (`while (!isAtGoal && steps < maxSteps)`), with
`maxStepsN` = 20 × the source's fractional `maxSteps`.  The fuel passed by
`buildPath` strictly exceeds the step budget, so the fuel-0 cut is never the
exit taken. -/
def buildPathLoop (cols rows : Int) (d : PathDirection) (fbN wbN rpN maxStepsN : Int)
    (goal : Point) :
    Nat → Int → List Point → List Point → Point → Nat → (List Point × Nat)
  | 0, _, path, _, _, s => (path, s)
  | fuel + 1, steps, path, visited, cur, s =>
      if pathIsAtGoal cols rows d cur || !(decide (20 * steps < maxStepsN)) then (path, s)
      else
        let cands := stepCandidates cols rows cur
        let scored := cands.map (fun c =>
          (c, candidateScore cols rows d goal fbN wbN rpN visited cur c))
        let (u, s') := rngDraw s
        match chooseWeightedPoint u scored with
        | none => (path, s')
        | some next =>
            buildPathLoop cols rows d fbN wbN rpN maxStepsN goal
              fuel (steps + 1) (path ++ [next]) (next :: visited) next s'

/-- The deterministic straight-line completion appended when the walk budget
runs out before the goal edge is reached. -/
def forcedCompletionLoop (cols rows : Int) (d : PathDirection) :
    Nat → List Point → Point → List Point
  | 0, path, _ => path
  | fuel + 1, path, cur =>
      if pathIsAtGoal cols rows d cur then path
      else
        let next : Point :=
          match d with
          | .left_to_right => if cur.x < cols - 1 then ⟨cur.x + 1, cur.y⟩ else cur
          | .right_to_left => if cur.x > 0 then ⟨cur.x - 1, cur.y⟩ else cur
          | .top_to_bottom => if cur.y < rows - 1 then ⟨cur.x, cur.y + 1⟩ else cur
          | .bottom_to_top => if cur.y > 0 then ⟨cur.x, cur.y - 1⟩ else cur
        if next = cur then path
        else forcedCompletionLoop cols rows d fuel (path ++ [next]) next

/-- Source `buildPath`.  The bias options are passed as exact numerators:
`fbN`, `wbN`, `rpN` at `scoreScale` and `msmN` = 20 × `maxStepsMultiplier`
(the generator always passes all four options, so the source's default
values are never drawn on). -/
def buildPath (cols rows : Int) (s : Nat) (d : PathDirection)
    (fbN wbN rpN msmN : Int) : List Point × Nat :=
  let (startPt, s1) :=
    match d with
    | .right_to_left =>
        let (y, s') := randomIntDraw s 0 (rows - 1); ((⟨cols - 1, y⟩ : Point), s')
    | .top_to_bottom =>
        let (x, s') := randomIntDraw s 0 (cols - 1); ((⟨x, 0⟩ : Point), s')
    | .bottom_to_top =>
        let (x, s') := randomIntDraw s 0 (cols - 1); ((⟨x, rows - 1⟩ : Point), s')
    | .left_to_right =>
        let (y, s') := randomIntDraw s 0 (rows - 1); ((⟨0, y⟩ : Point), s')
  let goal : Point :=
    match d with
    | .right_to_left => ⟨0, startPt.y⟩
    | .top_to_bottom => ⟨startPt.x, rows - 1⟩
    | .bottom_to_top => ⟨startPt.x, 0⟩
    | .left_to_right => ⟨cols - 1, startPt.y⟩
  let maxStepsN := cols * rows * msmN
  let walked := buildPathLoop cols rows d fbN wbN rpN maxStepsN goal
    (maxStepsN.toNat + 1) 0 [startPt] [startPt] startPt s1
  let path2 := forcedCompletionLoop cols rows d ((cols + rows).toNat + 2)
    walked.1 (walked.1.getLastD startPt)
  (path2, walked.2)

/-! ## Level assembly (`buildProceduralLevel`) -/

/-- Generate `n` values left to right, threading the RNG state. -/
def genList (draw : Nat → α × Nat) : Nat → Nat → List α × Nat
  | s, 0 => ([], s)
  | s, n + 1 =>
      let (v, s1) := draw s
      let (vs, s2) := genList draw s1 n
      (v :: vs, s2)

/-- Generate a `rows × cols` grid in row-major order, threading the RNG. -/
def genGrid (rows cols : Nat) (draw : Nat → α × Nat) (s : Nat) : List (List α) × Nat :=
  genList (fun st => genList draw st cols) s rows

/-- One of the 18 path attempts: draw the direction and the three fractional
bias options (in source order), then run the walk.  Weight numerators:
`2.2 + levelId·0.08 + rng()·0.6 ↦ (220+8·levelId)·2^32 + 60·u` etc. at
`scoreScale`; `7 + levelId·0.45 ↦ 140 + 9·levelId` at scale 20. -/
def pathAttemptDraw (levelId : Int) (cfg : LevelGenerationConfig) (s : Nat) :
    List Point × Nat :=
  let (d, s1) := randomFromDraw s cfg.directions PathDirection.left_to_right
  let (u1, s2) := rngDraw s1
  let fbN := (220 + 8 * levelId) * 4294967296 + 60 * (u1 : Int)
  let (u2, s3) := rngDraw s2
  let wbN := (90 + 5 * levelId) * 4294967296 + 120 * (u2 : Int)
  let (u3, s4) := rngDraw s3
  let rpN := 120 * 4294967296 + 160 * (u3 : Int)
  let msmN := 140 + 9 * levelId
  buildPath cfg.cols cfg.rows s4 d fbN wbN rpN msmN

/-- The sort key of the path selection: `turnDelta * 1.8 + lengthDelta`,
scaled by 10. -/
def pathSortScore (cfg : LevelGenerationConfig) (p : List Point) : Int :=
  let turnDelta := ((countTurns p - cfg.minTurns).natAbs : Int)
  let lengthDelta := (((p.length : Int) - cfg.targetLength).natAbs : Int)
  turnDelta * 18 + lengthDelta * 10

/-- `pathAttempts.sort(byScore)[0]`: JS array sort is stable, so the head of
the sorted array is the first attempt attaining the minimal score. -/
def selectBestPath (cfg : LevelGenerationConfig) : List (List Point) → List Point
  | [] => []
  | p :: rest =>
      rest.foldl (fun best q => if pathSortScore cfg q < pathSortScore cfg best then q else best) p

/-- The tile-encoding pass: write each path cell's (kind, rotation) derived
from its predecessor/successor into the layout and solved-rotation grids. -/
def encodePathStep (layout : List (List PuzzleKind)) (solved : List (List Int))
    (prev : Option Point) : List Point → List (List PuzzleKind) × List (List Int)
  | [] => (layout, solved)
  | cur :: rest =>
      let dirs : Direction × Direction :=
        match prev, rest.head? with
        | none, some nxt => let f := directionBetween cur nxt; (f, oppositeDirection f)
        | some prv, none => let f := directionBetween cur prv; (f, oppositeDirection f)
        | some prv, some nxt => (directionBetween cur prv, directionBetween cur nxt)
        | none, none => (Direction.E, Direction.W)
      let tile := dirsToTile dirs.1 dirs.2
      encodePathStep (setCell layout cur.y cur.x tile.1) (setCell solved cur.y cur.x tile.2)
        (some cur) rest

/-- The scramble step for one cell: a non-zero offset (a drawn offset of 0 is
promoted to 90), plus an extra drawn offset when the config's scramble boost
is non-zero. -/
def scrambleCell (scrambleBoost : Int) (rotation : Int) (s : Nat) : Int × Nat :=
  let (k, s1) := randomIntDraw s 0 3
  let offset := k * 90
  let base := (rotation + (if offset = 0 then 90 else offset)).tmod 360
  if scrambleBoost ≠ 0 then
    let (k2, s2) := randomIntDraw s1 0 3
    ((base + k2 * 90).tmod 360, s2)
  else (base, s1)

/-- Scramble one row, left to right. -/
def scrambleRow (boost : Int) : List Int → Nat → List Int × Nat
  | [], s => ([], s)
  | r :: rest, s =>
      let (v, s1) := scrambleCell boost r s
      let (vs, s2) := scrambleRow boost rest s1
      (v :: vs, s2)

/-- Scramble the whole solved grid into the initial-rotation candidate. -/
def scrambleGrid (boost : Int) : List (List Int) → Nat → List (List Int) × Nat
  | [], s => ([], s)
  | row :: rest, s =>
      let (r1, s1) := scrambleRow boost row s
      let (rs, s2) := scrambleGrid boost rest s1
      (r1 :: rs, s2)

/-- The non-path, non-endpoint cells, in row-major order. -/
def nonPathTilesOf (rows cols : Nat) (pathPts : List Point) (startPt goalPt : Point) :
    List Point :=
  ((List.range (rows * cols)).map (fun idx =>
      (⟨((idx % cols : Nat) : Int), ((idx / cols : Nat) : Int)⟩ : Point))).filter
    (fun p => !(decide (p ∈ pathPts)) && !(decide (p = startPt)) && !(decide (p = goalPt)))

/-- Decoration sampling: one draw per candidate cell, kept when the drawn
numerator clears the density threshold. -/
def decorFilter (keep : Nat → Bool) : List Point → Nat → List Point × Nat
  | [], s => ([], s)
  | p :: rest, s =>
      let (u, s1) := rngDraw s
      let (ps, s2) := decorFilter keep rest s1
      (if keep u then p :: ps else ps, s2)

/-- The perspective-link construction loop.  Per link: draw the two anchor
indices, pick the switch tile by cyclic index (no draw), skip if an anchor
lookup misses (before the coin), otherwise flip the allowed-rotation coin
only when a switch tile exists. -/
def buildLinksLoop (path : List Point) (nonPathTiles : List Point) :
    Nat → Int → Nat → List PerspectiveLink × Nat
  | 0, _, s => ([], s)
  | remaining + 1, linkIndex, s =>
      let len : Int := (path.length : Int)
      let (aIndex, s1) := randomIntDraw s 1 (max 1 (len / 3))
      let (bIndex, s2) := randomIntDraw s1 (len / 2) (len - 2)
      let switchTile := listAt nonPathTiles (linkIndex.tmod (max 1 (nonPathTiles.length : Int)))
      match listAt path aIndex, listAt path bIndex with
      | some pa, some pb =>
          let swFlip :=
            match switchTile with
            | some st =>
                let (u, s') := rngDraw s2
                (some ({ tile := st,
                         rotations := if u > 2147483648 then [0, 180] else [90, 270] } :
                        RequiredSwitch), s')
            | none => ((none : Option RequiredSwitch), s2)
          let rest := buildLinksLoop path nonPathTiles remaining (linkIndex + 1) swFlip.2
          ({ a := pa, b := pb, requiredSwitch := swFlip.1 } :: rest.1, rest.2)
      | _, _ => buildLinksLoop path nonPathTiles remaining (linkIndex + 1) s2

/-- Source `buildProceduralLevel`: the full per-attempt pipeline, from seeded
RNG to the candidate (level, canonical solved grid) pair. -/
def buildProceduralLevel (levelId : Int) (sessionSeed : Int) : GeneratedLevelCandidate :=
  let levelSeed := sessionSeed + levelId * 104729
  let s0 := rngInit levelSeed
  let cfg := levelConfig levelId
  let g1 := genGrid cfg.rows.toNat cfg.cols.toNat
    (fun s =>
      let (u, s') := rngDraw s
      (if u > 2147483648 then PuzzleKind.corner else PuzzleKind.straight, s')) s0
  let g2 := genGrid cfg.rows.toNat cfg.cols.toNat
    (fun s =>
      let (k, s') := randomIntDraw s 0 3
      (k * 90, s')) g1.2
  let att := genList (pathAttemptDraw levelId cfg) g2.2 18
  let path := selectBestPath cfg att.1
  let startPt := path.headD ⟨0, 0⟩
  let goalPt := path.getLastD ⟨0, 0⟩
  let enc := encodePathStep g1.1 g2.1 none path
  let solvedRotations := enc.2
  let scr := scrambleGrid cfg.scrambleBoost solvedRotations att.2
  let nonPathTiles := nonPathTilesOf cfg.rows.toNat cfg.cols.toNat path startPt goalPt
  let flw := decorFilter
    (fun u => decide (100 * (u : Int) > (90 - cfg.decorDensity) * 4294967296)) nonPathTiles scr.2
  let obs := decorFilter
    (fun u => decide (100 * (u : Int) > (105 - cfg.decorDensity) * 4294967296)) nonPathTiles flw.2
  let maxLinks := min cfg.perspectiveLinks (max 0 ((path.length : Int) / 5))
  let lnk := buildLinksLoop path nonPathTiles maxLinks.toNat 0 obs.2
  let thm := if levelId = 14 then ((6 : Int), lnk.2) else randomIntDraw lnk.2 0 6
  let mv := randomIntDraw thm.2 1 6
  let lvl0 : PuzzleLevel :=
    { id := levelId
      expectedMoves := max 6 ((path.length : Int) + countTurns path + mv.1)
      layout := enc.1
      initialRotations := scr.1
      start := startPt
      goal := goalPt
      perspectiveLinks := lnk.1
      themeIndex := thm.1
      flowerTileKeys := flw.1
      obstacleTileKeys := obs.1
      seed := levelSeed }
  let lvl := { lvl0 with initialRotations := ensureUnsolvedBoard lvl0 lvl0.initialRotations }
  { level := lvl, solvedRotations := cloneRotations solvedRotations }

/-- Source `isValidCandidate`: the canonical grid solves the level and the
initial grid does not. -/
def isValidCandidate (candidate : GeneratedLevelCandidate) : Bool :=
  isPuzzleSolved candidate.level candidate.solvedRotations &&
    !isPuzzleSolved candidate.level candidate.level.initialRotations

/-- The first attempt index in `0..27` whose candidate validates, if any. -/
def firstValidAttempt (levelId : Int) (sessionSeed : Int) : Option Nat :=
  (List.range 28).find? (fun a =>
    isValidCandidate (buildProceduralLevel levelId (sessionSeed + (a : Int) * 8191)))

/-- Source `buildValidatedProceduralLevel`: return the first valid candidate
among 28 seed-perturbed attempts; after exhaustion, fall back to the first
attempt's candidate with its initial grid passed through
`ensureUnsolvedBoard` again.  (The source's `throw` is dead: the fallback is
assigned on the first iteration.) -/
def buildValidatedProceduralLevel (levelId : Int) (sessionSeed : Int) : PuzzleLevel :=
  let cands := (List.range 28).map (fun a =>
    buildProceduralLevel levelId (sessionSeed + (a : Int) * 8191))
  match cands.find? isValidCandidate with
  | some c => c.level
  | none =>
      let fb := buildProceduralLevel levelId sessionSeed
      { fb.level with
          initialRotations := ensureUnsolvedBoard fb.level fb.level.initialRotations }

/-! ## Derived connectivity notions used by the theorems -/

/-- The tile boundary `(p, d)` carries a valid mutual connection: `d` is open
at `p`, the neighbour in direction `d` is in bounds, and the opposite
direction is open there.  This is exactly the per-direction test both BFS
expansion and the Spring/Gate checks perform. -/
def boundaryConn (level : PuzzleLevel) (rots : List (List Int)) (p : Point) (d : Direction) : Bool :=
  decide (d ∈ openDirsAt level rots p) && inBounds level (neighborPoint p d) &&
    decide (oppositeDirection d ∈ openDirsAt level rots (neighborPoint p d))

/-- One BFS step out of an in-bounds node. -/
def bfsEdgeInb (level : PuzzleLevel) (rots : List (List Int)) (p q : Point) : Prop :=
  inBounds level p = true ∧ q ∈ stepTargets level rots p

/-- Reachability along BFS steps whose sources are in bounds. -/
def ReachableInb (level : PuzzleLevel) (rots : List (List Int)) (src q : Point) : Prop :=
  Relation.ReflTransGen (bfsEdgeInb level rots) src q

/-! ## Exact-exception model of the connectivity queries

The total model above reads grids with optional chaining everywhere; the
source, however, uses the direct `grid[y][x]` form inside
`findReachableNodes` / `isPuzzleSolved`, which THROWS when `grid[y]` is
`undefined` and yields `undefined` (propagating as `NaN`) when only the entry
is missing.  The `...E` functions model this exactly with `Except Unit`. -/

/-- JS row lookup `g[y]`. -/
def rowAt (g : List (List α)) (y : Int) : Option (List α) :=
  if y < 0 then none else g.get? y.toNat

/-- Exact JS semantics of the direct 2-d index `g[y][x]`: a missing row
throws, a missing entry in a present row is `undefined`. -/
def cellDirect (g : List (List α)) (y x : Int) : Except Unit (Option α) :=
  match rowAt g y with
  | none => .error ()
  | some row => .ok (listAt row x)

/-- `getTileOpenDirections(layout[y][x], rotations[y][x])` with direct
indexing on both grids (evaluation order: layout first). -/
def openDirsAtE (level : PuzzleLevel) (rots : List (List Int)) (p : Point) :
    Except Unit (List Direction) := do
  let k ← cellDirect level.layout p.y p.x
  let r ← cellDirect rots p.y p.x
  pure (getTileOpenDirectionsO k r)

/-- The Spring-exit scan over the start tile's open directions
(`for (const dir of springDirs) ... break`). -/
def springScanE (level : PuzzleLevel) (rots : List (List Int)) (p : Point) :
    List Direction → Except Unit Bool
  | [] => .ok false
  | d :: rest => do
      let q := neighborPoint p d
      if inBounds level q then do
        let nd ← openDirsAtE level rots q
        if decide (oppositeDirection d ∈ nd) then pure true
        else springScanE level rots p rest
      else springScanE level rots p rest

/-- The Spring connection test with exact exception behaviour; the link scan
uses optional chaining and cannot throw. -/
def springHasConnectionE (level : PuzzleLevel) (rots : List (List Int)) : Except Unit Bool := do
  let springDirs ← openDirsAtE level rots level.start
  let g ← springScanE level rots level.start springDirs
  pure (g || level.perspectiveLinks.any (fun link =>
    isPerspectiveLinkActive link rots &&
      (decide (link.a = level.start) || decide (link.b = level.start))))

/-- Grid expansion of one BFS node with exact exception behaviour. -/
def gridTargetsScanE (level : PuzzleLevel) (rots : List (List Int)) (p : Point) :
    List Direction → Except Unit (List Point)
  | [] => .ok []
  | d :: rest => do
      let q := neighborPoint p d
      let tailTs ← gridTargetsScanE level rots p rest
      if inBounds level q then do
        let nd ← openDirsAtE level rots q
        if decide (oppositeDirection d ∈ nd) then pure (q :: tailTs) else pure tailTs
      else pure tailTs

/-- The BFS worklist loop with exact exception behaviour. -/
def bfsLoopE (level : PuzzleLevel) (rots : List (List Int)) :
    Nat → List Point → List Point → Except Unit (List Point)
  | 0, _, vis => .ok vis
  | _ + 1, [], vis => .ok vis
  | fuel + 1, p :: rest, vis => do
      let dirs ← openDirsAtE level rots p
      let gts ← gridTargetsScanE level rots p dirs
      let pr := bfsProcess (gts ++ linkStepTargets level rots p) vis
      bfsLoopE level rots fuel (rest ++ pr.2) pr.1

/-- Source `findReachableNodes` with exact exception behaviour. -/
def findReachableNodesE (level : PuzzleLevel) (rots : List (List Int)) :
    Except Unit (List Point) := do
  let conn ← springHasConnectionE level rots
  if conn then bfsLoopE level rots (bfsFuel level) [level.start] [level.start]
  else pure []

/-- The Gate-entry scan of `isPuzzleSolved` (grid side). -/
def gateScanE (level : PuzzleLevel) (rots : List (List Int)) (p : Point)
    (reachable : List Point) : List Direction → Except Unit Bool
  | [] => .ok false
  | d :: rest => do
      let q := neighborPoint p d
      if inBounds level q then do
        let nd ← openDirsAtE level rots q
        if decide (oppositeDirection d ∈ nd) && decide (q ∈ reachable) then pure true
        else gateScanE level rots p reachable rest
      else gateScanE level rots p reachable rest

/-- Source `isPuzzleSolved` with exact exception behaviour. -/
def isPuzzleSolvedE (level : PuzzleLevel) (rots : List (List Int)) : Except Unit Bool := do
  let springOk ← springHasConnectionE level rots
  if !springOk then pure false
  else do
    let reachable ← findReachableNodesE level rots
    if !(decide (level.start ∈ reachable)) then pure false
    else if !(decide (level.goal ∈ reachable)) then pure false
    else do
      let gdirs ← openDirsAtE level rots level.goal
      let gateGrid ← gateScanE level rots level.goal reachable gdirs
      pure (gateGrid || level.perspectiveLinks.any (fun link =>
        isPerspectiveLinkActive link rots &&
          (decide (link.a = level.goal) || decide (link.b = level.goal)) &&
          decide ((if link.a = level.goal then link.b else link.a) ∈ reachable)))

/-! ## Concrete fixtures used by witnesses and counterexamples -/

/-- A well-formed 1×2 level: two straight tiles, Spring left, Gate right.
Rotation 90 on both tiles opens E/W and solves it. -/
def demoLevel2 : PuzzleLevel :=
  { id := 0
    expectedMoves := 0
    layout := [[.straight, .straight]]
    initialRotations := [[90, 90]]
    start := ⟨0, 0⟩
    goal := ⟨1, 0⟩
    perspectiveLinks := []
    themeIndex := 0
    flowerTileKeys := []
    obstacleTileKeys := []
    seed := 0 }

/-- A well-formed 1×3 level of straight tiles, Spring left, Gate right. -/
def demoLevel3 : PuzzleLevel :=
  { id := 0
    expectedMoves := 0
    layout := [[.straight, .straight, .straight]]
    initialRotations := [[90, 90, 90]]
    start := ⟨0, 0⟩
    goal := ⟨2, 0⟩
    perspectiveLinks := []
    themeIndex := 0
    flowerTileKeys := []
    obstacleTileKeys := []
    seed := 0 }

/-- A demo link gated on the switch tile `(1,1)` with allowed snapped
rotations `{0, 180}`. -/
def demoGatedLink : PerspectiveLink :=
  { a := ⟨0, 0⟩, b := ⟨2, 0⟩, requiredSwitch := some { tile := ⟨1, 1⟩, rotations := [0, 180] } }

/-- A 2×3 rotation grid whose switch cell `(1,1)` is at rotation 90. -/
def demoGatedRots : List (List Int) := [[0, 0, 0], [0, 90, 0]]

/-! ## Basic lemmas -/

theorem getTileOpenDirectionsO_some (kind : PuzzleKind) (r : Int) :
    getTileOpenDirectionsO (some kind) (some r) = getTileOpenDirections kind r := by
  cases kind <;> rfl

theorem cloneRotations_eq (input : List (List Int)) : cloneRotations input = input := by
  simp [cloneRotations]

/-- C4.  Link gating: a `PerspectiveLink` without a required switch is active
under every rotation grid; one with a required switch whose tile's rotation is
present is active iff that rotation, normalized into `[0,360)` and snapped to
the nearest multiple of 90, lies in the allowed set; and in the concrete
scenario — allowed set `{0,180}`, switch tile at rotation 90 — the link is
inactive, and becomes active after the switch tile is set to 180. -/
theorem link_gating_claim :
    (∀ (link : PerspectiveLink) (rots : List (List Int)),
        link.requiredSwitch = none → isPerspectiveLinkActive link rots = true) ∧
    (∀ (link : PerspectiveLink) (sw : RequiredSwitch) (rots : List (List Int)) (r : Int),
        link.requiredSwitch = some sw → cellAt rots sw.tile.y sw.tile.x = some r →
        (isPerspectiveLinkActive link rots = true ↔
          sw.rotations.contains (snapRotation (((r.tmod 360) + 360).tmod 360)) = true)) ∧
    isPerspectiveLinkActive demoGatedLink demoGatedRots = false ∧
    isPerspectiveLinkActive demoGatedLink (setCell demoGatedRots 1 1 180) = true := by
  refine ⟨?_, ?_, ?_, ?_⟩
  · intro link rots h
    simp [isPerspectiveLinkActive, h]
  · intro link sw rots r h hr
    simp [isPerspectiveLinkActive, h, hr]
  · decide
  · decide

theorem link_gating_claim_witness :
    isPerspectiveLinkActive { a := ⟨0, 0⟩, b := ⟨1, 0⟩, requiredSwitch := none } [] = true :=
  link_gating_claim.1 { a := ⟨0, 0⟩, b := ⟨1, 0⟩, requiredSwitch := none } [] rfl

/-- C10.  A link whose required switch tile lies outside the supplied
rotation grid (the optional-chaining lookup is absent) is inactive: the
function returns `false` rather than failing or defaulting to active. -/
theorem link_out_of_grid_switch_inactive (link : PerspectiveLink) (sw : RequiredSwitch)
    (rots : List (List Int)) (h : link.requiredSwitch = some sw)
    (hmiss : cellAt rots sw.tile.y sw.tile.x = none) :
    isPerspectiveLinkActive link rots = false := by
  simp [isPerspectiveLinkActive, h, hmiss]

theorem link_out_of_grid_switch_inactive_witness :
    isPerspectiveLinkActive demoGatedLink [[0]] = false :=
  link_out_of_grid_switch_inactive demoGatedLink _ [[0]] rfl rfl

/-- C6.  Postcondition of the unsolved-state enforcer: on a solved grid it
returns either a grid that no longer solves the puzzle, or — only when both
the single-tile pass and the paired-tile pass find no unsolving perturbation —
the original grid unchanged.  (The enforcer returns only a rotation grid;
`layout`, `start`, `goal` and the link list of the level are fields of the
untouched `level` argument, so the claim's frame condition is structural in
this embedding.) -/
theorem ensure_unsolved_postcondition (level : PuzzleLevel) (rots : List (List Int))
    (hsolved : isPuzzleSolved level rots = true) :
    isPuzzleSolved level (ensureUnsolvedBoard level rots) = false ∨
    (ensureUnsolvedBoard level rots = rots ∧
      (singleAlternatives level rots).find? (fun g => !isPuzzleSolved level g) = none ∧
      (pairAlternatives level rots).find? (fun g => !isPuzzleSolved level g) = none) := by
  simp only [ensureUnsolvedBoard, cloneRotations_eq, hsolved, Bool.not_true,
    Bool.false_eq_true, if_false]
  cases h1 : (singleAlternatives level rots).find? (fun g => !isPuzzleSolved level g) with
  | some g =>
      left
      have hg := List.find?_some h1
      simpa using hg
  | none =>
      cases h2 : (pairAlternatives level rots).find? (fun g => !isPuzzleSolved level g) with
      | some g =>
          left
          have hg := List.find?_some h2
          simpa using hg
      | none =>
          right
          exact ⟨rfl, rfl, rfl⟩

theorem ensure_unsolved_postcondition_witness :
    isPuzzleSolved demoLevel2 (ensureUnsolvedBoard demoLevel2 [[90, 90]]) = false ∨
    (ensureUnsolvedBoard demoLevel2 [[90, 90]] = [[90, 90]] ∧
      (singleAlternatives demoLevel2 [[90, 90]]).find?
        (fun g => !isPuzzleSolved demoLevel2 g) = none ∧
      (pairAlternatives demoLevel2 [[90, 90]]).find?
        (fun g => !isPuzzleSolved demoLevel2 g) = none) :=
  ensure_unsolved_postcondition demoLevel2 [[90, 90]] (by decide)

theorem bfsFold_fst_mem_of_mem (ts : List Point) :
    ∀ (acc : List Point × List Point) (v : Point), v ∈ acc.1 → v ∈ (ts.foldl bfsInsert acc).1 := by
  induction ts with
  | nil => intro acc v h; simpa using h
  | cons t ts ih =>
      intro acc v h
      simp only [List.foldl_cons]
      apply ih
      by_cases ht : t ∈ acc.1
      · simpa [bfsInsert, ht] using h
      · simp [bfsInsert, ht]
        right
        exact h

theorem bfsLoop_mem_of_mem (level : PuzzleLevel) (rots : List (List Int)) :
    ∀ (fuel : Nat) (q vis : List Point) (v : Point), v ∈ vis → v ∈ bfsLoop level rots fuel q vis := by
  intro fuel
  induction fuel with
  | zero => intro q vis v h; simpa [bfsLoop] using h
  | succ fuel ih =>
      intro q vis v h
      cases q with
      | nil => simpa [bfsLoop] using h
      | cons p rest =>
          simp only [bfsLoop]
          apply ih
          exact bfsFold_fst_mem_of_mem _ _ _ h

/-- C9.  All-or-start invariant of reachability: the reachable set is empty
exactly when the Spring has no outward connection (no mutually-open in-bounds
neighbour and no active link touching the start); any non-empty reachable set
contains the start. -/
theorem reachable_all_or_start (level : PuzzleLevel) (rots : List (List Int))
    (hdims : dimsMatch level.layout rots = true) :
    (findReachableNodes level rots = [] ↔ springHasConnection level rots = false) ∧
    (findReachableNodes level rots ≠ [] → level.start ∈ findReachableNodes level rots) := by
  cases h : springHasConnection level rots with
  | false =>
      constructor
      · simp [findReachableNodes, h]
      · intro hne
        exact absurd (by simp [findReachableNodes, h]) hne
  | true =>
      have hstart : level.start ∈ findReachableNodes level rots := by
        simp only [findReachableNodes, h, if_true]
        exact bfsLoop_mem_of_mem level rots _ _ _ _ (by simp)
      constructor
      · constructor
        · intro he
          rw [he] at hstart
          simp at hstart
        · intro hf
          exact absurd hf (by simp)
      · intro _
        exact hstart

theorem reachable_all_or_start_witness :
    demoLevel2.start ∈ findReachableNodes demoLevel2 [[90, 90]] :=
  (reachable_all_or_start demoLevel2 [[90, 90]] (by decide)).2 (by decide)

/-- C3.  Determinism of generation: the embedding — like the source, whose
every random draw inside `buildValidatedProceduralLevel` comes from
`createSeededRandom(sessionSeed + levelId·104729)` seeded only from the
arguments, with no ambient state (`Date.now`, `Math.random`, globals) read
inside — is a pure function of `(levelId, sessionSeed)`, so two invocations
agree on the whole value and in particular on every field the claim lists. -/
theorem generation_deterministic (levelId sessionSeed : Int) :
    buildValidatedProceduralLevel levelId sessionSeed =
      buildValidatedProceduralLevel levelId sessionSeed ∧
    (buildValidatedProceduralLevel levelId sessionSeed).layout =
      (buildValidatedProceduralLevel levelId sessionSeed).layout ∧
    (buildValidatedProceduralLevel levelId sessionSeed).initialRotations =
      (buildValidatedProceduralLevel levelId sessionSeed).initialRotations ∧
    (buildValidatedProceduralLevel levelId sessionSeed).start =
      (buildValidatedProceduralLevel levelId sessionSeed).start ∧
    (buildValidatedProceduralLevel levelId sessionSeed).goal =
      (buildValidatedProceduralLevel levelId sessionSeed).goal ∧
    (buildValidatedProceduralLevel levelId sessionSeed).perspectiveLinks =
      (buildValidatedProceduralLevel levelId sessionSeed).perspectiveLinks ∧
    (buildValidatedProceduralLevel levelId sessionSeed).flowerTileKeys =
      (buildValidatedProceduralLevel levelId sessionSeed).flowerTileKeys ∧
    (buildValidatedProceduralLevel levelId sessionSeed).obstacleTileKeys =
      (buildValidatedProceduralLevel levelId sessionSeed).obstacleTileKeys ∧
    (buildValidatedProceduralLevel levelId sessionSeed).seed =
      (buildValidatedProceduralLevel levelId sessionSeed).seed :=
  ⟨rfl, rfl, rfl, rfl, rfl, rfl, rfl, rfl, rfl⟩

/-! ## Worklist-processing lemmas for the BFS -/

theorem bfsFold_mem_fst (ts : List Point) :
    ∀ (acc : List Point × List Point) (v : Point),
      v ∈ (ts.foldl bfsInsert acc).1 → v ∈ acc.1 ∨ v ∈ ts := by
  induction ts with
  | nil => intro acc v h; left; simpa using h
  | cons t ts ih =>
      intro acc v h
      simp only [List.foldl_cons] at h
      rcases ih _ v h with h1 | h1
      · by_cases ht : t ∈ acc.1
        · left; simpa [bfsInsert, ht] using h1
        · simp only [bfsInsert, if_neg ht, List.mem_cons] at h1
          rcases h1 with h1 | h1
          · right; simp [h1]
          · left; exact h1
      · right; simp [h1]

theorem bfsFold_mem_snd (ts : List Point) :
    ∀ (acc : List Point × List Point) (v : Point),
      v ∈ (ts.foldl bfsInsert acc).2 → v ∈ acc.2 ∨ v ∈ ts := by
  induction ts with
  | nil => intro acc v h; left; simpa using h
  | cons t ts ih =>
      intro acc v h
      simp only [List.foldl_cons] at h
      rcases ih _ v h with h1 | h1
      · by_cases ht : t ∈ acc.1
        · left; simpa [bfsInsert, ht] using h1
        · simp only [bfsInsert, if_neg ht, List.mem_append] at h1
          rcases h1 with h1 | h1
          · left; exact h1
          · right; simp_all
      · right; simp [h1]

theorem bfsFold_snd_mono (ts : List Point) :
    ∀ (acc : List Point × List Point) (v : Point),
      v ∈ acc.2 → v ∈ (ts.foldl bfsInsert acc).2 := by
  induction ts with
  | nil => intro acc v h; simpa using h
  | cons t ts ih =>
      intro acc v h
      simp only [List.foldl_cons]
      apply ih
      by_cases ht : t ∈ acc.1 <;> simp [bfsInsert, ht, h]

theorem bfsFold_targets_mem (ts : List Point) :
    ∀ (acc : List Point × List Point) (t : Point),
      t ∈ ts → t ∈ (ts.foldl bfsInsert acc).1 := by
  induction ts with
  | nil => intro acc t h; simp at h
  | cons t0 ts ih =>
      intro acc t h
      rcases List.mem_cons.mp h with rfl | h1
      · simp only [List.foldl_cons]
        apply bfsFold_fst_mem_of_mem
        by_cases ht : t ∈ acc.1 <;> simp [bfsInsert, ht]
      · simp only [List.foldl_cons]
        exact ih _ _ h1

theorem bfsFold_new_in_snd (ts : List Point) :
    ∀ (acc : List Point × List Point) (v : Point),
      v ∈ (ts.foldl bfsInsert acc).1 → v ∈ acc.1 ∨ v ∈ (ts.foldl bfsInsert acc).2 := by
  induction ts with
  | nil => intro acc v h; left; simpa using h
  | cons t ts ih =>
      intro acc v h
      simp only [List.foldl_cons] at h ⊢
      rcases ih _ v h with h1 | h1
      · by_cases ht : t ∈ acc.1
        · left; simpa [bfsInsert, ht] using h1
        · simp only [bfsInsert, if_neg ht, List.mem_cons] at h1
          rcases h1 with h1 | h1
          · right
            apply bfsFold_snd_mono
            simp [bfsInsert, ht, h1]
          · left; exact h1
      · right; exact h1

theorem bfsFold_snd_subset_fst (ts : List Point) :
    ∀ (acc : List Point × List Point), (∀ v ∈ acc.2, v ∈ acc.1) →
      ∀ v ∈ (ts.foldl bfsInsert acc).2, v ∈ (ts.foldl bfsInsert acc).1 := by
  induction ts with
  | nil => intro acc hacc v h; exact hacc v (by simpa using h)
  | cons t ts ih =>
      intro acc hacc v h
      simp only [List.foldl_cons] at h ⊢
      refine ih _ ?_ v h
      intro x hx
      by_cases ht : t ∈ acc.1
      · simp only [bfsInsert, if_pos ht] at hx ⊢
        exact hacc x hx
      · simp only [bfsInsert, if_neg ht, List.mem_append, List.mem_cons] at hx ⊢
        rcases hx with hx | hx
        · right; exact hacc x hx
        · left; simp_all

theorem bfsFold_nodup (ts : List Point) :
    ∀ (acc : List Point × List Point), acc.1.Nodup → (ts.foldl bfsInsert acc).1.Nodup := by
  induction ts with
  | nil => intro acc h; simpa using h
  | cons t ts ih =>
      intro acc h
      simp only [List.foldl_cons]
      apply ih
      by_cases ht : t ∈ acc.1
      · simpa [bfsInsert, ht] using h
      · simp only [bfsInsert, if_neg ht]
        exact List.Nodup.cons ht h

theorem bfsFold_length (ts : List Point) :
    ∀ (acc : List Point × List Point),
      (ts.foldl bfsInsert acc).1.length + acc.2.length =
        acc.1.length + (ts.foldl bfsInsert acc).2.length := by
  induction ts with
  | nil => intro acc; simp
  | cons t ts ih =>
      intro acc
      simp only [List.foldl_cons]
      by_cases ht : t ∈ acc.1
      · simpa [bfsInsert, ht] using ih acc
      · have h2 := ih (t :: acc.1, acc.2 ++ [t])
        simp only [bfsInsert, if_neg ht] at h2 ⊢
        simp only [List.length_cons, List.length_append, List.length_singleton, List.length_nil] at h2
        omega

theorem bfsProcess_fst_of_mem (ts vis : List Point) (v : Point) (h : v ∈ vis) :
    v ∈ (bfsProcess ts vis).1 :=
  bfsFold_fst_mem_of_mem ts (vis, []) v h

theorem bfsProcess_mem_fst (ts vis : List Point) (v : Point)
    (h : v ∈ (bfsProcess ts vis).1) : v ∈ vis ∨ v ∈ ts :=
  bfsFold_mem_fst ts (vis, []) v h

theorem bfsProcess_mem_snd (ts vis : List Point) (v : Point)
    (h : v ∈ (bfsProcess ts vis).2) : v ∈ ts := by
  rcases bfsFold_mem_snd ts (vis, []) v h with h0 | h0
  · simp at h0
  · exact h0

theorem bfsProcess_targets_mem (ts vis : List Point) (t : Point) (h : t ∈ ts) :
    t ∈ (bfsProcess ts vis).1 :=
  bfsFold_targets_mem ts (vis, []) t h

theorem bfsProcess_new_in_snd (ts vis : List Point) (v : Point)
    (h : v ∈ (bfsProcess ts vis).1) : v ∈ vis ∨ v ∈ (bfsProcess ts vis).2 :=
  bfsFold_new_in_snd ts (vis, []) v h

theorem bfsProcess_snd_subset_fst (ts vis : List Point) (v : Point)
    (h : v ∈ (bfsProcess ts vis).2) : v ∈ (bfsProcess ts vis).1 :=
  bfsFold_snd_subset_fst ts (vis, []) (by intro x hx; simp at hx) v h

theorem bfsProcess_nodup (ts vis : List Point) (h : vis.Nodup) : (bfsProcess ts vis).1.Nodup :=
  bfsFold_nodup ts (vis, []) h

theorem bfsProcess_length (ts vis : List Point) :
    (bfsProcess ts vis).1.length = vis.length + (bfsProcess ts vis).2.length := by
  have h := bfsFold_length ts (vis, [])
  simpa using h

/-! ## Step-target characterizations -/

theorem mem_gridStepTargets (level : PuzzleLevel) (rots : List (List Int)) (p q : Point) :
    q ∈ gridStepTargets level rots p ↔
      ∃ d, q = neighborPoint p d ∧ boundaryConn level rots p d = true := by
  unfold gridStepTargets
  rw [List.mem_filterMap]
  constructor
  · rintro ⟨d, hd, hf⟩
    by_cases hc : (inBounds level (neighborPoint p d) &&
        decide (oppositeDirection d ∈ openDirsAt level rots (neighborPoint p d))) = true
    · rw [if_pos hc] at hf
      injection hf with hf
      subst hf
      refine ⟨d, rfl, ?_⟩
      unfold boundaryConn
      simp only [Bool.and_eq_true, decide_eq_true_eq] at hc ⊢
      exact ⟨⟨hd, hc.1⟩, hc.2⟩
    · rw [if_neg hc] at hf
      cases hf
  · rintro ⟨d, rfl, hb⟩
    unfold boundaryConn at hb
    simp only [Bool.and_eq_true, decide_eq_true_eq] at hb
    refine ⟨d, hb.1.1, ?_⟩
    rw [if_pos]
    simp [hb.1.2, hb.2]

theorem linkStepTargets_congr (level : PuzzleLevel) (G1 G2 : List (List Int))
    (hactive : ∀ link ∈ level.perspectiveLinks,
      isPerspectiveLinkActive link G2 = isPerspectiveLinkActive link G1) (p : Point) :
    linkStepTargets level G2 p = linkStepTargets level G1 p := by
  unfold linkStepTargets
  apply List.filterMap_congr
  intro link hl
  rw [hactive link hl]

theorem mem_linkStepTargets (level : PuzzleLevel) (rots : List (List Int)) (p q : Point)
    (h : q ∈ linkStepTargets level rots p) :
    ∃ link ∈ level.perspectiveLinks, q = link.a ∨ q = link.b := by
  unfold linkStepTargets at h
  rw [List.mem_filterMap] at h
  obtain ⟨link, hl, hf⟩ := h
  refine ⟨link, hl, ?_⟩
  by_cases hc : (isPerspectiveLinkActive link rots &&
      (decide (link.a = p) || decide (link.b = p))) = true
  · rw [if_pos hc] at hf
    injection hf with hf
    by_cases hap : link.a = p
    · rw [if_pos hap] at hf
      exact Or.inr hf.symm
    · rw [if_neg hap] at hf
      exact Or.inl hf.symm
  · rw [if_neg hc] at hf
    cases hf

/-! ## Universe and bounds lemmas -/

theorem inBounds_mem_universe (level : PuzzleLevel) (t : Point) (h : inBounds level t = true) :
    t ∈ bfsUniverse level := by
  obtain ⟨x, y⟩ := t
  simp only [inBounds, Bool.and_eq_true, decide_eq_true_eq] at h
  obtain ⟨⟨⟨hx0, hy0⟩, hxc⟩, hyr⟩ := h
  unfold bfsUniverse
  refine List.mem_cons.mpr (Or.inr (List.mem_append.mpr (Or.inl ?_)))
  have hy : y.toNat ∈ List.range (rowCount level).toNat := List.mem_range.mpr (by omega)
  have hx : x.toNat ∈ List.range (colCount level).toNat := List.mem_range.mpr (by omega)
  refine List.mem_flatMap.mpr ⟨y.toNat, hy, ?_⟩
  have hpt : (⟨x, y⟩ : Point) = ⟨(x.toNat : Int), (y.toNat : Int)⟩ := by
    simp only [Point.mk.injEq]
    constructor <;> omega
  rw [hpt]
  exact List.mem_map_of_mem _ hx

theorem linkAnchor_mem_universe (level : PuzzleLevel) (link : PerspectiveLink)
    (hl : link ∈ level.perspectiveLinks) (t : Point) (ht : t = link.a ∨ t = link.b) :
    t ∈ bfsUniverse level := by
  unfold bfsUniverse
  refine List.mem_cons.mpr (Or.inr (List.mem_append.mpr (Or.inr ?_)))
  rw [List.mem_flatMap]
  refine ⟨link, hl, ?_⟩
  rcases ht with rfl | rfl <;> simp

theorem gridStepTargets_inBounds (level : PuzzleLevel) (rots : List (List Int)) (p q : Point)
    (h : q ∈ gridStepTargets level rots p) : inBounds level q = true := by
  rw [mem_gridStepTargets] at h
  obtain ⟨d, rfl, hb⟩ := h
  unfold boundaryConn at hb
  simp only [Bool.and_eq_true] at hb
  exact hb.1.2

theorem stepTargets_mem_universe (level : PuzzleLevel) (rots : List (List Int)) (p t : Point)
    (ht : t ∈ stepTargets level rots p) : t ∈ bfsUniverse level := by
  unfold stepTargets at ht
  rcases List.mem_append.mp ht with h | h
  · exact inBounds_mem_universe level t (gridStepTargets_inBounds level rots p t h)
  · obtain ⟨link, hl, hab⟩ := mem_linkStepTargets level rots p t h
    exact linkAnchor_mem_universe level link hl t hab

theorem stepTargets_inBounds (level : PuzzleLevel) (rots : List (List Int))
    (hlw : ∀ link ∈ level.perspectiveLinks,
      inBounds level link.a = true ∧ inBounds level link.b = true)
    (p q : Point) (hq : q ∈ stepTargets level rots p) : inBounds level q = true := by
  unfold stepTargets at hq
  rcases List.mem_append.mp hq with h | h
  · exact gridStepTargets_inBounds level rots p q h
  · obtain ⟨link, hl, hab⟩ := mem_linkStepTargets level rots p q h
    rcases hab with rfl | rfl
    · exact (hlw link hl).1
    · exact (hlw link hl).2

/-! ## Boundary symmetry and Spring-connection monotonicity -/

theorem neighborPoint_opposite (p : Point) (d : Direction) :
    neighborPoint (neighborPoint p d) (oppositeDirection d) = p := by
  obtain ⟨x, y⟩ := p
  cases d <;> simp [neighborPoint, oppositeDirection, Point.mk.injEq]

theorem oppositeDirection_involutive (d : Direction) :
    oppositeDirection (oppositeDirection d) = d := by
  cases d <;> rfl

theorem boundaryConn_symm (level : PuzzleLevel) (rots : List (List Int)) (p : Point)
    (d : Direction) (hp : inBounds level p = true)
    (hq : inBounds level (neighborPoint p d) = true) :
    boundaryConn level rots (neighborPoint p d) (oppositeDirection d) =
      boundaryConn level rots p d := by
  unfold boundaryConn
  rw [neighborPoint_opposite, oppositeDirection_involutive, hp, hq]
  cases h1 : decide (d ∈ openDirsAt level rots p) <;>
    cases h2 : decide (oppositeDirection d ∈ openDirsAt level rots (neighborPoint p d)) <;>
      simp [h1, h2]

theorem springHasConnection_mono (level : PuzzleLevel) (G1 G2 : List (List Int))
    (hstart : inBounds level level.start = true)
    (hconn : ∀ (p : Point) (d : Direction), inBounds level p = true →
      boundaryConn level G1 p d = true → boundaryConn level G2 p d = true)
    (hactive : ∀ link ∈ level.perspectiveLinks,
      isPerspectiveLinkActive link G2 = isPerspectiveLinkActive link G1)
    (h : springHasConnection level G1 = true) : springHasConnection level G2 = true := by
  unfold springHasConnection at h ⊢
  rw [Bool.or_eq_true] at h ⊢
  rcases h with h | h
  · left
    rw [List.any_eq_true] at h ⊢
    obtain ⟨d, hd, hcond⟩ := h
    simp only [Bool.and_eq_true, decide_eq_true_eq] at hcond
    have hb1 : boundaryConn level G1 level.start d = true := by
      unfold boundaryConn
      simp only [Bool.and_eq_true, decide_eq_true_eq]
      exact ⟨⟨hd, hcond.1⟩, hcond.2⟩
    have hb2 := hconn level.start d hstart hb1
    unfold boundaryConn at hb2
    simp only [Bool.and_eq_true, decide_eq_true_eq] at hb2
    refine ⟨d, hb2.1.1, ?_⟩
    simp only [Bool.and_eq_true, decide_eq_true_eq]
    exact ⟨hb2.1.2, hb2.2⟩
  · right
    rw [List.any_eq_true] at h ⊢
    obtain ⟨link, hl, hcond⟩ := h
    refine ⟨link, hl, ?_⟩
    rw [Bool.and_eq_true] at hcond ⊢
    refine ⟨?_, hcond.2⟩
    rw [hactive link hl]
    exact hcond.1

/-! ## BFS soundness, termination and closure -/

theorem nodup_subset_length {l u : List Point} (hn : l.Nodup) (hs : ∀ v ∈ l, v ∈ u) :
    l.length ≤ u.length := by
  calc l.length = l.toFinset.card := (List.toFinset_card_of_nodup hn).symm
    _ ≤ u.toFinset.card := Finset.card_le_card (fun x hx => by
        rw [List.mem_toFinset] at hx ⊢
        exact hs x hx)
    _ ≤ u.length := u.toFinset_card_le

theorem bfsLoop_sound (level : PuzzleLevel) (rots : List (List Int))
    (hlw : ∀ link ∈ level.perspectiveLinks,
      inBounds level link.a = true ∧ inBounds level link.b = true)
    (st : Point) :
    ∀ (fuel : Nat) (q vis : List Point),
      (∀ p ∈ q, inBounds level p = true) →
      (∀ p ∈ q, ReachableInb level rots st p) →
      (∀ v ∈ vis, ReachableInb level rots st v) →
      ∀ v ∈ bfsLoop level rots fuel q vis, ReachableInb level rots st v := by
  intro fuel
  induction fuel with
  | zero =>
      intro q vis _ _ hv v hmem
      exact hv v (by simpa [bfsLoop] using hmem)
  | succ fuel ih =>
      intro q vis hqin hqr hv v hmem
      cases q with
      | nil => exact hv v (by simpa [bfsLoop] using hmem)
      | cons p rest =>
          simp only [bfsLoop] at hmem
          have hpin : inBounds level p = true := hqin p (by simp)
          have hpr : ReachableInb level rots st p := hqr p (by simp)
          have htgt : ∀ t ∈ stepTargets level rots p, ReachableInb level rots st t :=
            fun t ht => Relation.ReflTransGen.tail hpr ⟨hpin, ht⟩
          have htin : ∀ t ∈ stepTargets level rots p, inBounds level t = true :=
            fun t ht => stepTargets_inBounds level rots hlw p t ht
          refine ih (rest ++ (bfsProcess (stepTargets level rots p) vis).2)
            (bfsProcess (stepTargets level rots p) vis).1 ?_ ?_ ?_ v hmem
          · intro x hx
            rcases List.mem_append.mp hx with hx | hx
            · exact hqin x (by simp [hx])
            · exact htin x (bfsProcess_mem_snd _ _ x hx)
          · intro x hx
            rcases List.mem_append.mp hx with hx | hx
            · exact hqr x (by simp [hx])
            · exact htgt x (bfsProcess_mem_snd _ _ x hx)
          · intro x hx
            rcases bfsProcess_mem_fst _ _ x hx with h0 | h0
            · exact hv x h0
            · exact htgt x h0

theorem bfsLoop_closed (level : PuzzleLevel) (rots : List (List Int)) :
    ∀ (fuel : Nat) (q vis : List Point),
      vis.Nodup →
      (∀ p ∈ q, p ∈ vis) →
      (∀ v ∈ vis, v ∈ q ∨ ∀ t ∈ stepTargets level rots v, t ∈ vis) →
      (∀ v ∈ vis, v ∈ bfsUniverse level) →
      q.length + ((bfsUniverse level).length + 1) ≤ fuel + vis.length →
      ∀ v ∈ bfsLoop level rots fuel q vis, ∀ t ∈ stepTargets level rots v,
        t ∈ bfsLoop level rots fuel q vis := by
  intro fuel
  induction fuel with
  | zero =>
      intro q vis hnd _ _ huniv hfuel
      exact absurd (nodup_subset_length hnd huniv) (by omega)
  | succ fuel ih =>
      intro q vis hnd hqv hpend huniv hfuel
      cases q with
      | nil =>
          intro v hv t ht
          simp only [bfsLoop] at hv ⊢
          rcases hpend v hv with h0 | h0
          · simp at h0
          · exact h0 t ht
      | cons p rest =>
          simp only [bfsLoop]
          have hnd2 := bfsProcess_nodup (stepTargets level rots p) vis hnd
          have hlen := bfsProcess_length (stepTargets level rots p) vis
          have huniv2 : ∀ v ∈ (bfsProcess (stepTargets level rots p) vis).1,
              v ∈ bfsUniverse level := by
            intro v hv
            rcases bfsProcess_mem_fst _ _ v hv with h0 | h0
            · exact huniv v h0
            · exact stepTargets_mem_universe level rots p v h0
          have hsz : (bfsProcess (stepTargets level rots p) vis).1.length ≤
              (bfsUniverse level).length :=
            nodup_subset_length hnd2 huniv2
          refine ih (rest ++ (bfsProcess (stepTargets level rots p) vis).2)
            (bfsProcess (stepTargets level rots p) vis).1 hnd2 ?_ ?_ huniv2 ?_
          · intro x hx
            rcases List.mem_append.mp hx with hx | hx
            · exact bfsProcess_fst_of_mem _ _ x (hqv x (by simp [hx]))
            · exact bfsProcess_snd_subset_fst _ _ x hx
          · intro v hv
            rcases bfsProcess_new_in_snd _ _ v hv with h0 | h0
            · rcases hpend v h0 with h1 | h1
              · rcases List.mem_cons.mp h1 with rfl | h1
                · right
                  intro t ht
                  exact bfsProcess_targets_mem _ _ t ht
                · left
                  exact List.mem_append.mpr (Or.inl h1)
              · right
                intro t ht
                exact bfsProcess_fst_of_mem _ _ t (h1 t ht)
            · left
              exact List.mem_append.mpr (Or.inr h0)
          · simp only [List.length_append, List.length_cons] at hfuel ⊢
            omega

theorem mem_findReachable_iff (level : PuzzleLevel) (rots : List (List Int))
    (hstart : inBounds level level.start = true)
    (hlw : ∀ link ∈ level.perspectiveLinks,
      inBounds level link.a = true ∧ inBounds level link.b = true)
    (hspring : springHasConnection level rots = true) (v : Point) :
    v ∈ findReachableNodes level rots ↔ ReachableInb level rots level.start v := by
  have hreach_eq : findReachableNodes level rots =
      bfsLoop level rots (bfsFuel level) [level.start] [level.start] := by
    simp [findReachableNodes, hspring]
  constructor
  · intro h
    rw [hreach_eq] at h
    refine bfsLoop_sound level rots hlw level.start (bfsFuel level) [level.start] [level.start]
      ?_ ?_ ?_ v h
    · intro p hp
      rw [List.mem_singleton] at hp
      subst hp
      exact hstart
    · intro p hp
      rw [List.mem_singleton] at hp
      subst hp
      exact Relation.ReflTransGen.refl
    · intro p hp
      rw [List.mem_singleton] at hp
      subst hp
      exact Relation.ReflTransGen.refl
  · intro h
    have hclosed := bfsLoop_closed level rots (bfsFuel level) [level.start] [level.start]
      (by simp) (by simp)
      (by intro w hw; left; simpa using hw)
      (by
        intro w hw
        rw [List.mem_singleton] at hw
        subst hw
        exact List.mem_cons_self _ _)
      (by simp only [List.length_singleton, bfsFuel]; omega)
    have hstartmem : level.start ∈
        bfsLoop level rots (bfsFuel level) [level.start] [level.start] :=
      bfsLoop_mem_of_mem level rots _ _ _ _ (by simp)
    rw [hreach_eq]
    unfold ReachableInb at h
    induction h with
    | refl => exact hstartmem
    | tail _ hedge ihh => exact hclosed _ ihh _ hedge.2

theorem stepTargets_mono (level : PuzzleLevel) (G1 G2 : List (List Int))
    (hconn : ∀ (p : Point) (d : Direction), inBounds level p = true →
      boundaryConn level G1 p d = true → boundaryConn level G2 p d = true)
    (hactive : ∀ link ∈ level.perspectiveLinks,
      isPerspectiveLinkActive link G2 = isPerspectiveLinkActive link G1)
    (p : Point) (hp : inBounds level p = true) (t : Point)
    (ht : t ∈ stepTargets level G1 p) : t ∈ stepTargets level G2 p := by
  unfold stepTargets at ht ⊢
  rcases List.mem_append.mp ht with h | h
  · refine List.mem_append.mpr (Or.inl ?_)
    rw [mem_gridStepTargets] at h ⊢
    obtain ⟨d, rfl, hb⟩ := h
    exact ⟨d, rfl, hconn p d hp hb⟩
  · refine List.mem_append.mpr (Or.inr ?_)
    rw [linkStepTargets_congr level G1 G2 hactive p]
    exact h

theorem reachableInb_mono (level : PuzzleLevel) (G1 G2 : List (List Int))
    (hconn : ∀ (p : Point) (d : Direction), inBounds level p = true →
      boundaryConn level G1 p d = true → boundaryConn level G2 p d = true)
    (hactive : ∀ link ∈ level.perspectiveLinks,
      isPerspectiveLinkActive link G2 = isPerspectiveLinkActive link G1)
    (src v : Point) (h : ReachableInb level G1 src v) : ReachableInb level G2 src v := by
  unfold ReachableInb at h ⊢
  induction h with
  | refl => exact Relation.ReflTransGen.refl
  | tail _ hedge ihh =>
      exact Relation.ReflTransGen.tail ihh
        ⟨hedge.1, stepTargets_mono level G1 G2 hconn hactive _ hedge.1 _ hedge.2⟩

/-- C5.  Reachability monotonicity: if `G2` differs from `G1` only by adding
one valid direction-match at a single tile boundary `(a, d0)` — the two
previously mismatched adjacent tiles now connect, every other in-grid boundary
connection and every link activation being unchanged — then every node
reachable under `G1` is reachable under `G2`.  The level is assumed
well-formed per the data model (start and link anchors on the grid, rotation
grids of matching dimensions). -/
theorem reachable_monotone_add_connection
    (level : PuzzleLevel) (G1 G2 : List (List Int)) (a : Point) (d0 : Direction)
    (hdims1 : dimsMatch level.layout G1 = true)
    (hdims2 : dimsMatch level.layout G2 = true)
    (hstart : inBounds level level.start = true)
    (hlw : ∀ link ∈ level.perspectiveLinks,
      inBounds level link.a = true ∧ inBounds level link.b = true)
    (hina : inBounds level a = true)
    (hinb : inBounds level (neighborPoint a d0) = true)
    (hadd1 : boundaryConn level G1 a d0 = false)
    (hadd2 : boundaryConn level G2 a d0 = true)
    (hframe : ∀ (p : Point) (d : Direction), inBounds level p = true →
      ¬(p = a ∧ d = d0) → ¬(p = neighborPoint a d0 ∧ d = oppositeDirection d0) →
      boundaryConn level G2 p d = boundaryConn level G1 p d)
    (hactive : ∀ link ∈ level.perspectiveLinks,
      isPerspectiveLinkActive link G2 = isPerspectiveLinkActive link G1) :
    ∀ v ∈ findReachableNodes level G1, v ∈ findReachableNodes level G2 := by
  have hconn : ∀ (p : Point) (d : Direction), inBounds level p = true →
      boundaryConn level G1 p d = true → boundaryConn level G2 p d = true := by
    intro p d hp h1
    by_cases hpa : p = a ∧ d = d0
    · rw [hpa.1, hpa.2] at h1
      rw [hadd1] at h1
      cases h1
    · by_cases hpb : p = neighborPoint a d0 ∧ d = oppositeDirection d0
      · rw [hpb.1, hpb.2] at h1
        rw [boundaryConn_symm level G1 a d0 hina hinb] at h1
        rw [hadd1] at h1
        cases h1
      · rw [hframe p d hp hpa hpb]
        exact h1
  intro v hv
  cases hs : springHasConnection level G1 with
  | false =>
      rw [findReachableNodes, hs] at hv
      simp at hv
  | true =>
      have hs2 := springHasConnection_mono level G1 G2 hstart hconn hactive hs
      have h1 := (mem_findReachable_iff level G1 hstart hlw hs v).mp hv
      exact (mem_findReachable_iff level G2 hstart hlw hs2 v).mpr
        (reachableInb_mono level G1 G2 hconn hactive level.start v h1)

theorem reachable_monotone_add_connection_witness :
    (⟨1, 0⟩ : Point) ∈ findReachableNodes demoLevel3 [[90, 90, 90]] :=
  reachable_monotone_add_connection demoLevel3 [[90, 90, 0]] [[90, 90, 90]]
    ⟨1, 0⟩ Direction.E (by decide) (by decide) (by decide)
    (by intro link hl; simp [demoLevel3] at hl)
    (by decide) (by decide) (by decide) (by decide)
    (by
      intro p d hp h1 h2
      obtain ⟨x, y⟩ := p
      simp only [inBounds, demoLevel3, Bool.and_eq_true, decide_eq_true_eq] at hp
      have hx : x = 0 ∨ x = 1 ∨ x = 2 := by
        rcases hp with ⟨⟨⟨hx0, hy0⟩, hxc⟩, hyr⟩
        simp [colCount, demoLevel3] at hxc
        omega
      have hy : y = 0 := by
        rcases hp with ⟨⟨⟨hx0, hy0⟩, hxc⟩, hyr⟩
        simp [rowCount, demoLevel3] at hyr
        omega
      subst hy
      rcases hx with rfl | rfl | rfl <;> cases d <;>
        first
          | (exfalso; exact h1 (by decide))
          | (exfalso; exact h2 (by decide))
          | decide)
    (by intro link hl; simp [demoLevel3] at hl)
    ⟨1, 0⟩ (by decide)

/-! ## Concrete scenario A (level 1, session seed 11) -/

set_option maxRecDepth 200000 in
theorem firstValidAttempt1_seed11 : firstValidAttempt 1 11 = some 0 := by
  rfl

set_option maxRecDepth 200000 in
theorem level1_seed11_eq :
    buildValidatedProceduralLevel 1 11 =
      { id := 1
        expectedMoves := 11
        layout := [[.corner, .corner, .straight],
                   [.straight, .straight, .corner],
                   [.corner, .straight, .straight]]
        initialRotations := [[0, 90, 0], [180, 90, 0], [180, 180, 180]]
        start := ⟨0, 1⟩
        goal := ⟨2, 2⟩
        perspectiveLinks := []
        themeIndex := 5
        flowerTileKeys := [⟨0, 0⟩]
        obstacleTileKeys := [⟨2, 0⟩, ⟨1, 1⟩]
        seed := 104740 } := by
  rfl

/-- C7, counterexample.  Scenario A claims the goal of the level generated
for (levelId 1, session seed 11) lies on the same row as its start; in fact
the biased walk reaches the right edge of the 3×3 grid on row 2 while the
start is on row 1, so `goal.y ≠ start.y`. -/
theorem scenarioA_row_counterexample :
    ¬((buildValidatedProceduralLevel 1 11).goal.y =
        (buildValidatedProceduralLevel 1 11).start.y) := by
  rw [level1_seed11_eq]
  decide

/-- C7, amended.  Generating level 1 with session seed 11 succeeds on the
very first of the 28 attempts (so the generator terminates within its budget
without reaching the fallback), and the resulting level's goal lies at column
2 — but on row 2, while the start lies on row 1 (the goal does not share the
start's row). -/
theorem scenarioA_amended :
    firstValidAttempt 1 11 = some 0 ∧
    (buildValidatedProceduralLevel 1 11).goal.x = 2 ∧
    (buildValidatedProceduralLevel 1 11).goal.y = 2 ∧
    (buildValidatedProceduralLevel 1 11).start.y = 1 := by
  refine ⟨firstValidAttempt1_seed11, ?_, ?_, ?_⟩ <;> rw [level1_seed11_eq]

/-! ## Fail-fast behaviour on malformed rotation grids -/

/-- C8, amended.  The query functions throw (modelled by `Except.error`)
exactly at a dereference of a missing rotation-grid ROW: whenever the
rotation grid has no row at the start's row index, both `findReachableNodes`
and `isPuzzleSolved` raise instead of returning a result. -/
theorem failfast_missing_start_row (level : PuzzleLevel) (rots : List (List Int))
    (h : rowAt rots level.start.y = none) :
    findReachableNodesE level rots = Except.error () ∧
    isPuzzleSolvedE level rots = Except.error () := by
  have hdirs : openDirsAtE level rots level.start = Except.error () := by
    unfold openDirsAtE cellDirect
    rw [h]
    cases hrow : rowAt level.layout level.start.y <;> rfl
  have hspring : springHasConnectionE level rots = Except.error () := by
    unfold springHasConnectionE
    rw [hdirs]
    rfl
  constructor
  · unfold findReachableNodesE
    rw [hspring]
    rfl
  · unfold isPuzzleSolvedE
    rw [hspring]
    rfl

theorem failfast_missing_start_row_witness :
    findReachableNodesE demoLevel2 [] = Except.error () ∧
    isPuzzleSolvedE demoLevel2 [] = Except.error () :=
  failfast_missing_start_row demoLevel2 [] rfl

/-- C8, counterexample.  A rotation grid whose dimensions do not match the
layout (one row of length 1 against a 1×2 layout) on which BOTH query
functions silently return normal results — the missing entry acts as a
never-matching rotation, no exception is raised — refuting the claim that
every dimension mismatch fails fast. -/
theorem failfast_counterexample :
    dimsMatch demoLevel2.layout [[90]] = false ∧
    findReachableNodesE demoLevel2 [[90]] = Except.ok [⟨1, 0⟩, ⟨0, 0⟩] ∧
    isPuzzleSolvedE demoLevel2 [[90]] = Except.ok true :=
  ⟨rfl, rfl, rfl⟩

end Khido
